import Mathlib

/-!
Verification of the key-frame extraction core of the clothes-detection
repository (`src/utils/videoProcessorML.ts`, the metric-based variant:
`calculateHistogramDifference`, `calculateStructuralDifference`,
`calculateFrameDifference`, `calculateBlurScore`, and the `processVideo`
state machine).

Modelling conventions:
* An `ImageData` is a width, a height and a flat RGBA byte list, exactly as
  the canvas `ImageData` object; `data[i]` reads use `List.getD _ i 0`.
* JavaScript numbers are modelled by exact rationals `ℚ`.  Every arithmetic
  operation the metrics perform (sums, divisions, squares, `Math.abs`,
  `Math.min`) is exact here.  The only float subtlety is the histogram bin
  `Math.floor((v / 255) * 64)`: for byte values `0 ≤ v ≤ 255` the double
  result is never within an ulp of crossing an integer boundary except at
  the exactly-representable endpoints, so the float floor coincides with
  the exact `v * 64 / 255` natural division used here.
* `Math.floor` on nonnegative quantities is `Nat` division.
* The candidate sorts (`Array.prototype.sort`, stable per ES2019) are
  modelled by the stable `List.mergeSort` with the comparator's order.
* The driving loop of `processVideo` is modelled as a step function on an
  explicit engine state, iterated with fuel; video seeking, canvas capture
  and the data-URL encoding are external collaborators, so `captureFrame`
  is modelled by a total frame source `ℚ → ImageData` (a capture never
  fails), and a `Screenshot` keeps the fields the claims speak about
  (timestamp, frame number, blur score).
-/

set_option maxRecDepth 100000

namespace ClothesDetection

/-- The canvas `ImageData`: a pixel buffer of `width * height` RGBA pixels
stored as a flat byte list `[r0, g0, b0, a0, r1, g1, b1, a1, ...]`. -/
structure ImageData where
  width : Nat
  height : Nat
  data : List Nat
deriving DecidableEq

/-- `data[i]` with the out-of-range default `0`. -/
def byteAt (f : ImageData) (i : Nat) : Nat := f.data.getD i 0

/-- A real `ImageData` object: the byte list has exactly `4 * width * height`
entries and every entry is a byte. -/
def WellFormed (f : ImageData) : Prop :=
  f.data.length = 4 * f.width * f.height ∧ ∀ v ∈ f.data, v ≤ 255

instance (f : ImageData) : Decidable (WellFormed f) := by
  unfold WellFormed; infer_instance

/-! ### Histogram difference (`calculateHistogramDifference`) -/

/-- `const bins = 64`. -/
def bins : Nat := 64

/-- `Math.min(bins - 1, Math.floor((v / 255) * bins))` for a byte `v`. -/
def binOf (v : Nat) : Nat := min (bins - 1) (v * bins / 255)

/-- `pixelCount = data1.length / 4` (exact for real `ImageData`). -/
def pixelCount (f : ImageData) : Nat := f.data.length / 4

/-- `sampleRate = Math.max(1, Math.floor(pixelCount / 10000))`. -/
def sampleRate (f : ImageData) : Nat := max 1 (pixelCount f / 10000)

/-- Number of iterations of `for (i = 0; i < data1.length; i += 4 * sampleRate)`:
the ceiling of `data1.length / (4 * sampleRate)`. -/
def numSamples (f : ImageData) : Nat :=
  (f.data.length + (4 * sampleRate f - 1)) / (4 * sampleRate f)

/-- `total = Math.floor(data1.length / (4 * sampleRate))`, the count the
histograms are normalized by. -/
def histTotal (f : ImageData) : Nat := f.data.length / (4 * sampleRate f)

/-- Raw count in entry `j` of the flat 192-entry histogram (`R` bins at
`0..63`, `G` at `64..127`, `B` at `128..191`): sample `k` reads byte
`data[4 * s * k + c]` for channel `c = j / 64` and increments the bin
`j % 64` of that channel when it matches. -/
def histEntry (s n : Nat) (f : ImageData) (j : Nat) : Nat :=
  ((Finset.range n).filter fun k => binOf (byteAt f (4 * s * k + j / bins)) = j % bins).card

/-- Histogram entry after `hist[i] /= total` (skipped when `total = 0`). -/
def normHist (t s n : Nat) (f : ImageData) (j : Nat) : ℚ :=
  if 0 < t then (histEntry s n f j : ℚ) / t else (histEntry s n f j : ℚ)

/-- `calculateHistogramDifference`: returns `1` on a dimension mismatch;
otherwise builds the two sampled, normalized 192-entry histograms (the
stride and iteration count both come from `frame1`), computes the histogram
intersection and the chi-square distance, and combines
`(1 - intersection) * 0.4 + min(1, chiSquare / 192) * 0.6`. -/
def calculateHistogramDifference (f1 f2 : ImageData) : ℚ :=
  if f1.width ≠ f2.width ∨ f1.height ≠ f2.height then 1 else
  let s := sampleRate f1
  let n := numSamples f1
  let t := histTotal f1
  let h1 := normHist t s n f1
  let h2 := normHist t s n f2
  let intersection := ∑ j ∈ Finset.range (bins * 3), min (h1 j) (h2 j)
  let chiSquare := ∑ j ∈ Finset.range (bins * 3),
    if 0 < h1 j + h2 j then (h1 j - h2 j) ^ 2 / (h1 j + h2 j) else 0
  let intersectionDiff := 1 - intersection
  let chiSquareDiff := min 1 (chiSquare / (bins * 3))
  intersectionDiff * (2 / 5) + chiSquareDiff * (3 / 5)

/-! ### Structural difference (`calculateStructuralDifference`) -/

/-- `const blockSize = 32`. -/
def blockSize : Nat := 32

/-- `(Math.abs(r1 - r2) + Math.abs(g1 - g2) + Math.abs(b1 - b2)) / (3 * 255)`
for the pixel whose R byte sits at index `idx`. -/
def pixDiffQ (f1 f2 : ImageData) (idx : Nat) : ℚ :=
  (((((byteAt f1 idx : Int) - byteAt f2 idx).natAbs
      + ((byteAt f1 (idx + 1) : Int) - byteAt f2 (idx + 1)).natAbs
      + ((byteAt f1 (idx + 2) : Int) - byteAt f2 (idx + 2)).natAbs : Nat)) : ℚ) / (3 * 255)

/-- The `(px, py)` offsets the two inner `for` loops of block `(bx, yb)`
visit: `px < 32 ∧ bx * 32 + px < width` and likewise for `py` (the loops
stop at the first failing offset; the bounds are monotone, so the early
exit visits exactly this filtered set). -/
def blockPixels (w h bx yb : Nat) : Finset (Nat × Nat) :=
  (Finset.range blockSize ×ˢ Finset.range blockSize).filter fun p =>
    yb * blockSize + p.2 < h ∧ bx * blockSize + p.1 < w

/-- `blockDiff`: the sum of the per-pixel normalized channel differences over
the pixels of block `(bx, yb)`; indices are computed from `frame1`'s width. -/
def blockDiff (f1 f2 : ImageData) (bx yb : Nat) : ℚ :=
  ∑ p ∈ blockPixels f1.width f1.height bx yb,
    pixDiffQ f1 f2 (((yb * blockSize + p.2) * f1.width + (bx * blockSize + p.1)) * 4)

/-- `calculateStructuralDifference`: iterates the
`Math.floor(width / 32) × Math.floor(height / 32)` block grid; every block
with a positive pixel count contributes its average per-pixel difference,
and the result is `totalDiff / blockCount` (`0` when `blockCount = 0`).
Dimensions come from `frame1` only (the function has no mismatch check). -/
def calculateStructuralDifference (f1 f2 : ImageData) : ℚ :=
  let w := f1.width
  let h := f1.height
  let grid := Finset.range (w / blockSize) ×ˢ Finset.range (h / blockSize)
  let counted := grid.filter fun b => 0 < (blockPixels w h b.1 b.2).card
  let totalDiff := ∑ b ∈ counted, blockDiff f1 f2 b.1 b.2 / ((blockPixels w h b.1 b.2).card : ℚ)
  if 0 < counted.card then totalDiff / (counted.card : ℚ) else 0

/-- `calculateFrameDifference`: `1` on a dimension mismatch; with
`useHistogram` the hybrid `histDiff * 0.3 + structDiff * 0.7`; otherwise the
stride-16 sampled mean per-pixel difference fallback. -/
def calculateFrameDifference (f1 f2 : ImageData) (useHistogram : Bool) : ℚ :=
  if f1.width ≠ f2.width ∨ f1.height ≠ f2.height then 1
  else if useHistogram then
    calculateHistogramDifference f1 f2 * (3 / 10) + calculateStructuralDifference f1 f2 * (7 / 10)
  else
    let n := (f1.data.length + (4 * 16 - 1)) / (4 * 16)
    let diff := ∑ k ∈ Finset.range n, pixDiffQ f1 f2 (4 * 16 * k)
    if 0 < n then diff / (n : ℚ) else 0

/-! ### Sharpness scorer (`calculateBlurScore`) -/

/-- Grayscale value `data[idx] * 0.299 + data[idx+1] * 0.587 + data[idx+2] * 0.114`
of the pixel at `(x, y)` (`idx = (y * width + x) * 4`). -/
def grayAt (f : ImageData) (x y : Nat) : ℚ :=
  let idx := (y * f.width + x) * 4
  (byteAt f idx : ℚ) * (299 / 1000) + (byteAt f (idx + 1) : ℚ) * (587 / 1000)
    + (byteAt f (idx + 2) : ℚ) * (114 / 1000)

/-- `Math.abs(4 * center - top - bottom - left - right)` at interior pixel
`(x, y)` (so `1 ≤ x` and `1 ≤ y`). -/
def lapAt (f : ImageData) (x y : Nat) : ℚ :=
  |4 * grayAt f x y - grayAt f x (y - 1) - grayAt f x (y + 1)
    - grayAt f (x - 1) y - grayAt f (x + 1) y|

/-- The `laplacian` array: values pushed for `y = 1 .. height-2` (outer loop)
and `x = 1 .. width-2` (inner loop). -/
def laplacianList (f : ImageData) : List ℚ :=
  (List.range' 1 (f.height - 2)).flatMap fun y =>
    (List.range' 1 (f.width - 2)).map fun x => lapAt f x y

/-- `calculateBlurScore`: `0` when no interior pixel exists, otherwise the
variance (mean of squared deviations from the mean) of the Laplacian values. -/
def calculateBlurScore (f : ImageData) : ℚ :=
  let lap := laplacianList f
  if lap.length = 0 then 0 else
  let mean := lap.sum / (lap.length : ℚ)
  ((lap.map fun v => (v - mean) ^ 2).sum) / (lap.length : ℚ)

/-- A uniform-color frame: every pixel of the buffer has channels `(r, g, b)`. -/
def Uniform (f : ImageData) (r g b : Nat) : Prop :=
  ∀ p < f.width * f.height,
    byteAt f (4 * p) = r ∧ byteAt f (4 * p + 1) = g ∧ byteAt f (4 * p + 2) = b

instance (f : ImageData) (r g b : Nat) : Decidable (Uniform f r g b) := by
  unfold Uniform; infer_instance

/-! ### The key-frame engine (`processVideo`)

The driving loop is modelled as a step function on an explicit state.  The
frame source `source : ℚ → ImageData` stands for "seek to `t` and capture";
per the modelling conventions a capture always yields a frame.  A
`Screenshot` keeps timestamp, frame number and blur score (`id` and
`dataUrl` are presentation strings produced by the external image encoder).
The bootstrap screenshot's `blurScore` field is computed but not gated. -/

/-- The seven recognized `ProcessingOptions`. -/
structure ProcessingOptions where
  changeThreshold : ℚ
  minScreenshotInterval : ℚ
  sampleInterval : ℚ
  motionSmoothing : Nat
  stabilityWindow : ℚ
  stabilityThreshold : ℚ
  minBlurThreshold : ℚ
deriving DecidableEq

/-- The documented defaults. -/
def defaultOptions : ProcessingOptions :=
  { changeThreshold := 12 / 100
    minScreenshotInterval := 1
    sampleInterval := 2 / 10
    motionSmoothing := 3
    stabilityWindow := 5 / 10
    stabilityThreshold := 5 / 100
    minBlurThreshold := 100 }

/-- An emitted screenshot (timestamp, frame number, Laplacian blur score). -/
structure Screenshot where
  timestamp : ℚ
  frameNumber : Nat
  blurScore : ℚ
deriving DecidableEq

/-- An entry of the `stableFrames` candidate list. -/
structure StableFrame where
  time : ℚ
  frame : ImageData
  stability : ℚ
  blurScore : ℚ
deriving DecidableEq

/-- Placeholder candidate used to totalize `stableFrames[0]` (only read
behind a nonemptiness guard). -/
def dummyStable : StableFrame := ⟨0, ⟨0, 0, []⟩, 0, 0⟩

/-- The mutable locals of the `processVideo` loop. -/
structure EngineState where
  baselineFrame : Option ImageData
  frameNumber : Nat
  lastScreenshotTime : ℚ
  recentDifferences : List ℚ
  changeDetectedAt : Option ℚ
  stableFrames : List StableFrame
  screenshots : List Screenshot
  currentTime : ℚ
deriving DecidableEq

/-- `stableFrames.sort((a, b) => b.blurScore - a.blurScore)`: stable sort,
sharpest first. -/
def sortByBlur (l : List StableFrame) : List StableFrame :=
  l.mergeSort fun a b => decide (b.blurScore ≤ a.blurScore)

/-- Candidate ranking score `blurScore * 0.7 + (1 - stability) * 0.3`. -/
def candScore (c : StableFrame) : ℚ :=
  c.blurScore * (7 / 10) + (1 - c.stability) * (3 / 10)

/-- `stableFrames.sort((a, b) => scoreB - scoreA)`: stable sort by the
ranking score, best first. -/
def sortByScore (l : List StableFrame) : List StableFrame :=
  l.mergeSort fun a b => decide (candScore b ≤ candScore a)

/-- The stable-candidate collection step (`if (isStable && !changeDetectedAt)`
body): compute the blur score; if it passes `minBlurThreshold` push the
candidate, and when more than 5 are held re-sort sharpest-first and keep the
top 5. -/
def pushCandidate (opts : ProcessingOptions) (t : ℚ) (frame : ImageData)
    (difference : ℚ) (l : List StableFrame) : List StableFrame :=
  let blur := calculateBlurScore frame
  if opts.minBlurThreshold ≤ blur then
    let pushed := l ++ [⟨t, frame, difference, blur⟩]
    if 5 < pushed.length then (sortByBlur pushed).take 5 else pushed
  else l

/-- Resolution of an elapsed stability window (the body of
`if (changeDetectedAt && currentTime - changeDetectedAt >= stabilityWindow)`):
emit the best candidate, else fall back to the current frame when it is
sharp enough; in every case clear `changeDetectedAt`, `stableFrames` and
`recentDifferences` and skip the clock ahead by `minScreenshotInterval * 0.5`. -/
def resolveWindow (opts : ProcessingOptions) (currentFrame : ImageData)
    (s : EngineState) : EngineState :=
  let s2 :=
    if s.stableFrames ≠ [] ∧ opts.minScreenshotInterval ≤ s.currentTime - s.lastScreenshotTime then
      let best := (sortByScore s.stableFrames).headD dummyStable
      { s with
        screenshots := s.screenshots ++ [⟨best.time, s.frameNumber, best.blurScore⟩]
        lastScreenshotTime := best.time
        baselineFrame := some best.frame }
    else if s.stableFrames = [] ∧ opts.minScreenshotInterval ≤ s.currentTime - s.lastScreenshotTime then
      let blur := calculateBlurScore currentFrame
      if opts.minBlurThreshold ≤ blur then
        { s with
          screenshots := s.screenshots ++ [⟨s.currentTime, s.frameNumber, blur⟩]
          lastScreenshotTime := s.currentTime
          baselineFrame := some currentFrame }
      else s
    else s
  { s2 with
    changeDetectedAt := none
    stableFrames := []
    recentDifferences := []
    currentTime := s.currentTime + opts.minScreenshotInterval * (1 / 2) }

/-- `recentDifferences.push(difference)` followed by
`if (recentDifferences.length > motionSmoothing) recentDifferences.shift()`. -/
def rdUpdate (opts : ProcessingOptions) (rd : List ℚ) (d : ℚ) : List ℚ :=
  if opts.motionSmoothing < (rd ++ [d]).length then (rd ++ [d]).drop 1 else rd ++ [d]

/-- The smoothed difference: the mean of the retained recent differences. -/
def smoothedOf (rd : List ℚ) : ℚ := rd.sum / (rd.length : ℚ)

/-- `smoothedDifference > changeThreshold || difference > changeThreshold * 1.5`. -/
def sigChange (opts : ProcessingOptions) (smoothed d : ℚ) : Prop :=
  opts.changeThreshold < smoothed ∨ opts.changeThreshold * (3 / 2) < d

instance (opts : ProcessingOptions) (smoothed d : ℚ) :
    Decidable (sigChange opts smoothed d) := by
  unfold sigChange
  infer_instance

/-- One iteration of the `while (currentTime < duration - 0.1)` loop body:
capture, diff against the baseline, smooth, collect a candidate when stable
and no change is pending, detect a change, and resolve the window when it
has elapsed (the resolved branch `continue`s, so only the non-resolved paths
advance the clock by `sampleInterval`). -/
def loopBody (opts : ProcessingOptions) (source : ℚ → ImageData)
    (s : EngineState) : EngineState :=
  let currentFrame := source s.currentTime
  match s.baselineFrame with
  | none => { s with currentTime := s.currentTime + opts.sampleInterval }
  | some baseline =>
    let difference := calculateFrameDifference baseline currentFrame true
    let rd := rdUpdate opts s.recentDifferences difference
    let stable1 :=
      if difference < opts.stabilityThreshold ∧ s.changeDetectedAt = none then
        pushCandidate opts s.currentTime currentFrame difference s.stableFrames
      else s.stableFrames
    let fresh := sigChange opts (smoothedOf rd) difference ∧ s.changeDetectedAt = none
    let changeAt := if fresh then some s.currentTime else s.changeDetectedAt
    let stable2 := if fresh then [] else stable1
    let s1 : EngineState :=
      { s with
        frameNumber := s.frameNumber + 1
        recentDifferences := rd
        stableFrames := stable2
        changeDetectedAt := changeAt }
    match changeAt with
    | none => { s1 with currentTime := s.currentTime + opts.sampleInterval }
    | some t0 =>
      if opts.stabilityWindow ≤ s.currentTime - t0 then
        resolveWindow opts currentFrame s1
      else { s1 with currentTime := s.currentTime + opts.sampleInterval }

/-- One guarded loop step: run the body only while
`currentTime < duration - 0.1`; past the bound the state is unchanged, so
iterating with ample fuel computes the loop's final state. -/
def loopStep (opts : ProcessingOptions) (source : ℚ → ImageData) (duration : ℚ)
    (s : EngineState) : EngineState :=
  if s.currentTime < duration - 1 / 10 then loopBody opts source s else s

/-- The state after the bootstrap phase: the first frame at `0.1` becomes the
baseline, a second frame at `0.1 + stabilityWindow` is emitted as
Screenshot #0 with no blur gate and replaces the baseline, and the loop
clock starts at `0.1 + stabilityWindow + sampleInterval`. -/
def initState (opts : ProcessingOptions) (source : ℚ → ImageData) : EngineState :=
  let _firstFrame := source (1 / 10)
  let t0 := 1 / 10 + opts.stabilityWindow
  let stableFrame := source t0
  { baselineFrame := some stableFrame
    frameNumber := 1
    lastScreenshotTime := t0
    recentDifferences := []
    changeDetectedAt := none
    stableFrames := []
    screenshots := [⟨t0, 0, calculateBlurScore stableFrame⟩]
    currentTime := t0 + opts.sampleInterval }

/-- The post-loop pending-change block: when a change is still pending and
candidates exist, rank them and emit the best if it clears the interval gate
(`lastScreenshotTime` is not updated here, as in the source). -/
def pendingResolve (opts : ProcessingOptions) (s : EngineState) : EngineState :=
  match s.changeDetectedAt with
  | none => s
  | some _ =>
    if s.stableFrames ≠ [] then
      let best := (sortByScore s.stableFrames).headD dummyStable
      if opts.minScreenshotInterval ≤ best.time - s.lastScreenshotTime then
        { s with screenshots := s.screenshots ++ [⟨best.time, s.frameNumber, best.blurScore⟩] }
      else s
    else s

/-- The final-frame block: capture at `max 0 (duration - 0.1)`; if screenshots
exist, emit when `|duration - last.timestamp| ≥ minScreenshotInterval` and
the frame is sharp enough, stamped `duration - 0.1`; an empty run emits the
final frame (stamped the same) on sharpness alone. -/
def finalCapture (opts : ProcessingOptions) (source : ℚ → ImageData)
    (duration : ℚ) (s : EngineState) : EngineState :=
  let finalFrame := source (max 0 (duration - 1 / 10))
  let blur := calculateBlurScore finalFrame
  match s.screenshots.getLast? with
  | some lastShot =>
    if opts.minScreenshotInterval ≤ |duration - lastShot.timestamp| ∧
        opts.minBlurThreshold ≤ blur then
      { s with screenshots := s.screenshots ++ [⟨duration - 1 / 10, s.frameNumber + 1, blur⟩] }
    else s
  | none =>
    if opts.minBlurThreshold ≤ blur then
      { s with screenshots := s.screenshots ++ [⟨duration - 1 / 10, 0, blur⟩] }
    else s

/-- The whole `processVideo` run: bootstrap, `fuel` guarded loop steps, the
pending-change block, then the final-frame block. -/
def processVideoModel (opts : ProcessingOptions) (source : ℚ → ImageData)
    (duration : ℚ) (fuel : Nat) : EngineState :=
  finalCapture opts source duration
    (pendingResolve opts
      ((loopStep opts source duration)^[fuel] (initState opts source)))

/-! ### Concrete frames used by counterexamples, failing inputs and witnesses -/

/-- Flatten a list of `(r, g, b)` pixels into an RGBA byte list (alpha 255). -/
def rgba (l : List (Nat × Nat × Nat)) : List Nat :=
  l.flatMap fun p => [p.1, p.2.1, p.2.2, 255]

/-- A 1×1 black frame. -/
def blackPx : ImageData := ⟨1, 1, rgba [(0, 0, 0)]⟩

/-- A 1×1 white frame. -/
def whitePx : ImageData := ⟨1, 1, rgba [(255, 255, 255)]⟩

/-- A 2×1 black frame. -/
def blackRow2 : ImageData := ⟨2, 1, rgba [(0, 0, 0), (0, 0, 0)]⟩

/-- A 4×3 uniformly black frame (blur score 0). -/
def frameU : ImageData := ⟨4, 3, rgba (List.replicate 12 (0, 0, 0))⟩

/-- A 4×3 frame, black except pixel `(2, 1)` at gray 50: its two interior
Laplacian values are 50 and 200, so its blur score is 5625. -/
def frameB : ImageData :=
  ⟨4, 3, rgba [(0, 0, 0), (0, 0, 0), (0, 0, 0), (0, 0, 0),
               (0, 0, 0), (0, 0, 0), (50, 50, 50), (0, 0, 0),
               (0, 0, 0), (0, 0, 0), (0, 0, 0), (0, 0, 0)]⟩

/-- A 4×3 white frame. -/
def frameW : ImageData := ⟨4, 3, rgba (List.replicate 12 (255, 255, 255))⟩

/-- Frame source for the C1 failing run: sharp frame `frameB` everywhere,
except a white frame at `t = 0.8` that triggers a change detection. -/
def srcC1 : ℚ → ImageData := fun t => if t = 4 / 5 then frameW else frameB

/-- Frame source for the C5 counterexample run: blurry uniform frames
everywhere, except a sharp frame at the final-capture position `t = 1.5`. -/
def srcC5 : ℚ → ImageData := fun t => if t = 3 / 2 then frameB else frameU

/-- The state the C1 failing run reaches after one loop iteration (the white
frame at `0.8` has opened a change window). -/
def stateC1_1 : EngineState :=
  { baselineFrame := some frameB
    frameNumber := 2
    lastScreenshotTime := 3 / 5
    recentDifferences := [201 / 1600]
    changeDetectedAt := some (4 / 5)
    stableFrames := []
    screenshots := [⟨3 / 5, 0, 5625⟩]
    currentTime := 1 }

/-- The state the C1 failing run reaches after the second loop iteration:
the stable, sharp frame at `t = 1` was processed inside the open window and
`stableFrames` is still empty. -/
def stateC1_2 : EngineState :=
  { baselineFrame := some frameB
    frameNumber := 3
    lastScreenshotTime := 3 / 5
    recentDifferences := [201 / 1600, -6 / 25]
    changeDetectedAt := some (4 / 5)
    stableFrames := []
    screenshots := [⟨3 / 5, 0, 5625⟩]
    currentTime := 6 / 5 }

/-! ### Invariants of the engine state -/

/-- The window invariant: while a change is pending the candidate list is
empty. -/
def WindowInv (s : EngineState) : Prop :=
  s.changeDetectedAt.isSome → s.stableFrames = []

/-- The emission invariant: the window invariant, a non-empty screenshot
list whose consecutive timestamps are at least `minScreenshotInterval`
apart, whose last element's timestamp is `lastScreenshotTime`, which in turn
is at most `duration`. -/
def EmitInv (opts : ProcessingOptions) (duration : ℚ) (s : EngineState) : Prop :=
  WindowInv s ∧
  s.screenshots ≠ [] ∧
  List.Chain' (fun a b => a.timestamp + opts.minScreenshotInterval ≤ b.timestamp) s.screenshots ∧
  (∃ lastShot, s.screenshots.getLast? = some lastShot ∧
    lastShot.timestamp = s.lastScreenshotTime) ∧
  s.lastScreenshotTime ≤ duration


/-! ### The spec's description of the structural component, for claim C4 -/

/-- The structural component as the spec describes it (refinement target for
C4): partition both frames into non-overlapping 32×32 blocks where partial
blocks at the right and bottom borders are also compared over their
actually-available pixels — a `⌈w/32⌉ × ⌈h/32⌉` grid — and average the
per-block average per-pixel normalized channel difference over all blocks. -/
def structuralDifferenceSpec (f1 f2 : ImageData) : ℚ :=
  let w := f1.width
  let h := f1.height
  let bX := (w + (blockSize - 1)) / blockSize
  let bY := (h + (blockSize - 1)) / blockSize
  let grid := Finset.range bX ×ˢ Finset.range bY
  if 0 < bX * bY then
    (∑ b ∈ grid, blockDiff f1 f2 b.1 b.2 / ((blockPixels w h b.1 b.2).card : ℚ))
      / ((bX * bY : Nat) : ℚ)
  else 0

/-- What the code actually computes (amended C4): only the
`⌊w/32⌋ × ⌊h/32⌋` grid of full 32×32 blocks is compared — pixels in partial
border blocks are ignored — and the result is the average over these blocks
of the per-block average (over its 1024 pixels) of the per-pixel mean
absolute channel difference normalized to `[0,1]`; `0` when no full block
fits. -/
def structuralDifferenceFullBlocks (f1 f2 : ImageData) : ℚ :=
  let w := f1.width
  let h := f1.height
  let bX := w / blockSize
  let bY := h / blockSize
  if 0 < bX * bY then
    (∑ b ∈ Finset.range bX ×ˢ Finset.range bY,
        (∑ p ∈ Finset.range blockSize ×ˢ Finset.range blockSize,
            pixDiffQ f1 f2 (((b.2 * blockSize + p.2) * w + (b.1 * blockSize + p.1)) * 4))
          / ((blockSize * blockSize : Nat) : ℚ))
      / ((bX * bY : Nat) : ℚ)
  else 0

/-! ## Theorems -/

unseal Rat.add Rat.mul Rat.inv Rat.sub in
/-- Claim C2 (code_bug evaluation): the frame-difference of two equal-sized
frames is claimed to lie in `[0,1]`, but for the 1×1 black frame against
itself the code yields `-6/25 < 0`: the histogram "intersection" sums the
per-bin minima of three concatenated per-channel histograms each normalized
to mass 1, so it is `3` for identical histograms and `1 - intersection`
is `-2`. -/
theorem c2_difference_below_zero :
    blackPx.width = blackPx.width ∧ blackPx.height = blackPx.height ∧
    calculateFrameDifference blackPx blackPx true = -6 / 25 ∧
    calculateFrameDifference blackPx blackPx true < 0 := by
  decide

unseal Rat.add Rat.mul Rat.inv Rat.sub in
/-- Claim C3 (code_bug evaluation): `difference(a,a)` is claimed to be `0`,
but on the 2×1 black frame the histogram component evaluates to `-4/5` and
the combined difference to `-6/25 ≠ 0`. -/
theorem c3_self_difference_nonzero :
    calculateHistogramDifference blackRow2 blackRow2 = -4 / 5 ∧
    calculateFrameDifference blackRow2 blackRow2 true = -6 / 25 ∧
    ((-6 / 25 : ℚ) ≠ 0) := by
  decide

/-- Claim C7 (confirmed): whenever the two frames' widths or heights differ,
`calculateFrameDifference` (for either value of `useHistogram`) and
`calculateHistogramDifference` return exactly `1`; the functions are total,
so no failure is possible. -/
theorem c7_mismatch_returns_one (f1 f2 : ImageData) (u : Bool)
    (h : f1.width ≠ f2.width ∨ f1.height ≠ f2.height) :
    calculateFrameDifference f1 f2 u = 1 ∧ calculateHistogramDifference f1 f2 = 1 := by
  constructor
  · unfold calculateFrameDifference
    rw [if_pos h]
  · unfold calculateHistogramDifference
    rw [if_pos h]

/-- Witness for C7 at the 1×1 and 2×1 black frames (widths 1 ≠ 2). -/
theorem c7_mismatch_returns_one_witness :
    calculateFrameDifference blackPx blackRow2 true = 1 ∧
    calculateHistogramDifference blackPx blackRow2 = 1 :=
  c7_mismatch_returns_one blackPx blackRow2 true (Or.inl (by decide))

unseal Rat.add Rat.mul Rat.inv Rat.sub in
/-- Claim C4 (counterexample): on 1×1 black vs white frames the code's
structural difference is `0` — there is no full 32×32 block, and partial
border blocks are skipped — while the spec's partial-blocks-included
description yields `1`. -/
theorem c4_partial_blocks_counterexample :
    calculateStructuralDifference blackPx whitePx = 0 ∧
    structuralDifferenceSpec blackPx whitePx = 1 ∧
    ((0 : ℚ) ≠ 1) := by
  decide

unseal Rat.add Rat.mul Rat.inv Rat.sub in
/-- Claim C1 (code_bug evaluation): on the failing run (default options,
source `srcC1`, duration 3) a change window opens at `t = 0.8`; at `t = 1`
the sampled frame `frameB` has difference `-6/25 < stabilityThreshold` from
the baseline and blur `5625 ≥ minBlurThreshold`, so per the claim it must be
added to the candidate set; but after that iteration — with the window still
open, `1 - 0.8 < stabilityWindow` — `stableFrames` is still empty, because
the code's accumulation guard `isStable && !changeDetectedAt` shuts
collection off for the whole window. -/
theorem c1_open_window_drops_candidate :
    (loopStep defaultOptions srcC1 3)^[1] (initState defaultOptions srcC1) = stateC1_1 ∧
    stateC1_1.changeDetectedAt = some (4 / 5) ∧
    stateC1_1.currentTime = 1 ∧
    stateC1_1.baselineFrame = some frameB ∧
    srcC1 1 = frameB ∧
    calculateFrameDifference frameB frameB true < defaultOptions.stabilityThreshold ∧
    defaultOptions.minBlurThreshold ≤ calculateBlurScore frameB ∧
    (1 : ℚ) - 4 / 5 < defaultOptions.stabilityWindow ∧
    loopStep defaultOptions srcC1 3 stateC1_1 = stateC1_2 ∧
    stateC1_2.stableFrames = [] ∧
    stateC1_2.changeDetectedAt = some (4 / 5) := by
  refine ⟨by decide, by decide, by decide, by decide, by decide, by decide, by decide,
    by decide, by decide, by decide, by decide⟩

unseal Rat.add Rat.mul Rat.inv Rat.sub in
/-- Claim C5 (counterexample): with default options
(`minScreenshotInterval = 1`) on a 1.6-second run whose frames are blurry
except a sharp final frame, the run emits exactly the bootstrap screenshot
at `t = 0.6` and the final-frame screenshot stamped `duration - 0.1 = 1.5`:
the final gate measures `|duration - last| = 1.0 ≥ 1`, but the emitted pair
is only `0.9 < minScreenshotInterval` apart, refuting the claimed
`≥ minScreenshotInterval` spacing for the end-of-run emission. -/
theorem c5_final_gap_counterexample :
    (processVideoModel defaultOptions srcC5 (8 / 5) 4).screenshots.map Screenshot.timestamp
      = [3 / 5, 3 / 2] ∧
    defaultOptions.minScreenshotInterval = 1 ∧
    ¬ (3 / 5 + defaultOptions.minScreenshotInterval ≤ (3 / 2 : ℚ)) := by
  refine ⟨by decide, by decide, by decide⟩

/-! ### Helper lemmas for the sharpness scorer -/

/-- A frame with `width ≤ 2` or `height ≤ 2` has no interior pixel. -/
lemma laplacianList_eq_nil {f : ImageData} (h : f.width ≤ 2 ∨ f.height ≤ 2) :
    laplacianList f = [] := by
  unfold laplacianList
  rcases h with h | h
  · have hw : f.width - 2 = 0 := Nat.sub_eq_zero_of_le h
    rw [hw]
    induction (List.range' 1 (f.height - 2)) with
    | nil => rfl
    | cons y ys ih => simp [List.flatMap_cons, ih]
  · have hh : f.height - 2 = 0 := Nat.sub_eq_zero_of_le h
    rw [hh]
    rfl

/-- On a uniform frame every in-bounds pixel has the same gray value. -/
lemma grayAt_uniform {f : ImageData} {r g b : Nat} (hu : Uniform f r g b)
    {x y : Nat} (hx : x < f.width) (hy : y < f.height) :
    grayAt f x y = (r : ℚ) * (299 / 1000) + (g : ℚ) * (587 / 1000) + (b : ℚ) * (114 / 1000) := by
  have hp : y * f.width + x < f.width * f.height := by
    have h1 : y * f.width + x < (y + 1) * f.width := by
      have : (y + 1) * f.width = y * f.width + f.width := by ring
      omega
    have h2 : (y + 1) * f.width ≤ f.height * f.width :=
      Nat.mul_le_mul_right _ hy
    have h3 : f.height * f.width = f.width * f.height := Nat.mul_comm _ _
    omega
  obtain ⟨h1, h2, h3⟩ := hu (y * f.width + x) hp
  unfold grayAt
  dsimp only
  have hidx : (y * f.width + x) * 4 = 4 * (y * f.width + x) := Nat.mul_comm _ _
  rw [hidx, h1, h2, h3]

/-- On a uniform frame every interior Laplacian value is `0`. -/
lemma lapAt_uniform {f : ImageData} {r g b : Nat} (hu : Uniform f r g b)
    {x y : Nat} (hx1 : 1 ≤ x) (hx2 : x + 1 < f.width) (hy1 : 1 ≤ y) (hy2 : y + 1 < f.height) :
    lapAt f x y = 0 := by
  unfold lapAt
  rw [grayAt_uniform hu (by omega) (by omega), grayAt_uniform hu (by omega) (by omega),
    grayAt_uniform hu (by omega) (by omega), grayAt_uniform hu (by omega) (by omega),
    grayAt_uniform hu (by omega) (by omega)]
  have : (4 * ((r : ℚ) * (299 / 1000) + (g : ℚ) * (587 / 1000) + (b : ℚ) * (114 / 1000))
      - ((r : ℚ) * (299 / 1000) + (g : ℚ) * (587 / 1000) + (b : ℚ) * (114 / 1000))
      - ((r : ℚ) * (299 / 1000) + (g : ℚ) * (587 / 1000) + (b : ℚ) * (114 / 1000))
      - ((r : ℚ) * (299 / 1000) + (g : ℚ) * (587 / 1000) + (b : ℚ) * (114 / 1000))
      - ((r : ℚ) * (299 / 1000) + (g : ℚ) * (587 / 1000) + (b : ℚ) * (114 / 1000))) = 0 := by
    ring
  rw [this, abs_zero]

/-- Every Laplacian value of a uniform frame is `0`. -/
lemma laplacianList_uniform {f : ImageData} {r g b : Nat} (hu : Uniform f r g b) :
    ∀ v ∈ laplacianList f, v = 0 := by
  intro v hv
  unfold laplacianList at hv
  rw [List.mem_flatMap] at hv
  obtain ⟨y, hy, hv⟩ := hv
  rw [List.mem_map] at hv
  obtain ⟨x, hx, rfl⟩ := hv
  rw [List.mem_range'] at hy hx
  obtain ⟨i, hi, rfl⟩ := hy
  obtain ⟨j, hj, rfl⟩ := hx
  exact lapAt_uniform hu (by omega) (by omega) (by omega) (by omega)

/-- Claim C8 (confirmed): the blur score is total and non-negative for every
frame; it is exactly `0` when the frame has no interior pixel
(width ≤ 2 or height ≤ 2), and exactly `0` on any uniform-color frame. -/
theorem c8_blur_contract (f : ImageData) :
    0 ≤ calculateBlurScore f ∧
    ((f.width ≤ 2 ∨ f.height ≤ 2) → calculateBlurScore f = 0) ∧
    (∀ r g b, Uniform f r g b → calculateBlurScore f = 0) := by
  refine ⟨?_, ?_, ?_⟩
  · unfold calculateBlurScore
    dsimp only
    split
    · exact le_refl 0
    · apply div_nonneg
      · apply List.sum_nonneg
        intro v hv
        rw [List.mem_map] at hv
        obtain ⟨w, _, rfl⟩ := hv
        positivity
      · positivity
  · intro h
    unfold calculateBlurScore
    rw [laplacianList_eq_nil h]
    rfl
  · intro r g b hu
    have hz := laplacianList_uniform hu
    unfold calculateBlurScore
    dsimp only
    split
    · rfl
    · rename_i hne
      have hsum : (laplacianList f).sum = 0 := List.sum_eq_zero hz
      have hmap : (laplacianList f).map
          (fun v => (v - (laplacianList f).sum / ((laplacianList f).length : ℚ)) ^ 2)
          = (laplacianList f).map (fun _ => 0) := by
        apply List.map_congr_left
        intro v hv
        rw [hz v hv, hsum]
        norm_num
      rw [hmap]
      simp

/-- Witness for C8: non-negativity at the sharp frame `frameB`, the empty
interior case at the 1×1 frame, and the uniform case at the black 4×3
frame. -/
theorem c8_blur_contract_witness :
    0 ≤ calculateBlurScore frameB ∧ calculateBlurScore blackPx = 0 ∧
    calculateBlurScore frameU = 0 :=
  ⟨(c8_blur_contract frameB).1,
   (c8_blur_contract blackPx).2.1 (Or.inl (by decide)),
   (c8_blur_contract frameU).2.2 0 0 0 (by decide)⟩

/-! ### Helper lemmas for the structural component -/

/-- Inside the full-block grid the inner-loop bound checks always hold. -/
lemma blockPixels_full {w bx i : Nat} (hbx : bx < w / blockSize) (hi : i < blockSize) :
    bx * blockSize + i < w := by
  have h1 : (bx + 1) * blockSize ≤ (w / blockSize) * blockSize :=
    Nat.mul_le_mul_right _ hbx
  have h2 : (w / blockSize) * blockSize ≤ w := Nat.div_mul_le_self _ _
  have h3 : (bx + 1) * blockSize = bx * blockSize + blockSize := by ring
  omega

/-- Blocks of the floor grid are full 32×32 squares. -/
lemma blockPixels_eq_full {w h bx yb : Nat} (hbx : bx < w / blockSize)
    (hyb : yb < h / blockSize) :
    blockPixels w h bx yb = Finset.range blockSize ×ˢ Finset.range blockSize := by
  unfold blockPixels
  apply Finset.filter_true_of_mem
  intro p hp
  rw [Finset.mem_product, Finset.mem_range, Finset.mem_range] at hp
  exact ⟨blockPixels_full hyb hp.2, blockPixels_full hbx hp.1⟩

/-- Claim C4 (amended, proved): `calculateStructuralDifference` equals the
average, over the `⌊w/32⌋ × ⌊h/32⌋` full blocks only, of the per-block
average per-pixel normalized channel difference; pixels of partial border
blocks never contribute. -/
theorem c4_full_blocks_only (f1 f2 : ImageData) :
    calculateStructuralDifference f1 f2 = structuralDifferenceFullBlocks f1 f2 := by
  unfold calculateStructuralDifference structuralDifferenceFullBlocks
  dsimp only
  have hmem : ∀ b ∈ Finset.range (f1.width / blockSize) ×ˢ Finset.range (f1.height / blockSize),
      blockPixels f1.width f1.height b.1 b.2 = Finset.range blockSize ×ˢ Finset.range blockSize := by
    intro b hb
    rw [Finset.mem_product, Finset.mem_range, Finset.mem_range] at hb
    exact blockPixels_eq_full hb.1 hb.2
  have hcard : (Finset.range blockSize ×ˢ Finset.range blockSize).card = blockSize * blockSize := by
    simp [Finset.card_product]
  have hfilter : ((Finset.range (f1.width / blockSize) ×ˢ Finset.range (f1.height / blockSize)).filter
        fun b => 0 < (blockPixels f1.width f1.height b.1 b.2).card)
      = Finset.range (f1.width / blockSize) ×ˢ Finset.range (f1.height / blockSize) := by
    apply Finset.filter_true_of_mem
    intro b hb
    rw [hmem b hb, hcard]
    decide
  rw [hfilter]
  have hgrid : (Finset.range (f1.width / blockSize) ×ˢ Finset.range (f1.height / blockSize)).card
      = f1.width / blockSize * (f1.height / blockSize) := by
    simp [Finset.card_product]
  rw [hgrid]
  have hsum : ∑ b ∈ Finset.range (f1.width / blockSize) ×ˢ Finset.range (f1.height / blockSize),
        blockDiff f1 f2 b.1 b.2 / ((blockPixels f1.width f1.height b.1 b.2).card : ℚ)
      = ∑ b ∈ Finset.range (f1.width / blockSize) ×ˢ Finset.range (f1.height / blockSize),
        (∑ p ∈ Finset.range blockSize ×ˢ Finset.range blockSize,
            pixDiffQ f1 f2 (((b.2 * blockSize + p.2) * f1.width + (b.1 * blockSize + p.1)) * 4))
          / ((blockSize * blockSize : Nat) : ℚ) := by
    apply Finset.sum_congr rfl
    intro b hb
    unfold blockDiff
    rw [hmem b hb, hcard]
  rw [hsum]

/-! ### Helper lemmas for symmetry of the difference metrics -/

/-- The per-pixel normalized channel difference is symmetric. -/
lemma pixDiffQ_symm (f1 f2 : ImageData) (idx : Nat) :
    pixDiffQ f1 f2 idx = pixDiffQ f2 f1 idx := by
  unfold pixDiffQ
  have h : ∀ a b : Int, (a - b).natAbs = (b - a).natAbs := by
    intro a b
    rw [← neg_sub, Int.natAbs_neg]
  rw [h ((byteAt f1 idx : Int)) _, h ((byteAt f1 (idx + 1) : Int)) _,
    h ((byteAt f1 (idx + 2) : Int)) _]

/-- The histogram difference is symmetric for frames of equal dimensions and
equal buffer lengths (the stride and iteration count are taken from the
first frame, so equal lengths make the two sample sets coincide). -/
lemma histogramDifference_symm {f1 f2 : ImageData} (hw : f1.width = f2.width)
    (hh : f1.height = f2.height) (hlen : f1.data.length = f2.data.length) :
    calculateHistogramDifference f1 f2 = calculateHistogramDifference f2 f1 := by
  unfold calculateHistogramDifference
  have hc1 : ¬ (f1.width ≠ f2.width ∨ f1.height ≠ f2.height) := by
    push_neg
    exact ⟨hw, hh⟩
  have hc2 : ¬ (f2.width ≠ f1.width ∨ f2.height ≠ f1.height) := by
    push_neg
    exact ⟨hw.symm, hh.symm⟩
  rw [if_neg hc1, if_neg hc2]
  dsimp only
  have hs : sampleRate f1 = sampleRate f2 := by
    unfold sampleRate pixelCount
    rw [hlen]
  have hn : numSamples f1 = numSamples f2 := by
    unfold numSamples
    rw [hlen, hs]
  have ht : histTotal f1 = histTotal f2 := by
    unfold histTotal
    rw [hlen, hs]
  rw [← hs, ← hn, ← ht]
  have hinter :
      ∑ j ∈ Finset.range (bins * 3),
          min (normHist (histTotal f1) (sampleRate f1) (numSamples f1) f1 j)
            (normHist (histTotal f1) (sampleRate f1) (numSamples f1) f2 j)
        = ∑ j ∈ Finset.range (bins * 3),
          min (normHist (histTotal f1) (sampleRate f1) (numSamples f1) f2 j)
            (normHist (histTotal f1) (sampleRate f1) (numSamples f1) f1 j) := by
    apply Finset.sum_congr rfl
    intro j _
    exact min_comm _ _
  have hchi :
      ∑ j ∈ Finset.range (bins * 3),
          (if 0 < normHist (histTotal f1) (sampleRate f1) (numSamples f1) f1 j
              + normHist (histTotal f1) (sampleRate f1) (numSamples f1) f2 j then
            (normHist (histTotal f1) (sampleRate f1) (numSamples f1) f1 j
              - normHist (histTotal f1) (sampleRate f1) (numSamples f1) f2 j) ^ 2
            / (normHist (histTotal f1) (sampleRate f1) (numSamples f1) f1 j
              + normHist (histTotal f1) (sampleRate f1) (numSamples f1) f2 j) else 0)
        = ∑ j ∈ Finset.range (bins * 3),
          (if 0 < normHist (histTotal f1) (sampleRate f1) (numSamples f1) f2 j
              + normHist (histTotal f1) (sampleRate f1) (numSamples f1) f1 j then
            (normHist (histTotal f1) (sampleRate f1) (numSamples f1) f2 j
              - normHist (histTotal f1) (sampleRate f1) (numSamples f1) f1 j) ^ 2
            / (normHist (histTotal f1) (sampleRate f1) (numSamples f1) f2 j
              + normHist (histTotal f1) (sampleRate f1) (numSamples f1) f1 j) else 0) := by
    apply Finset.sum_congr rfl
    intro j _
    have hadd : normHist (histTotal f1) (sampleRate f1) (numSamples f1) f1 j
          + normHist (histTotal f1) (sampleRate f1) (numSamples f1) f2 j
        = normHist (histTotal f1) (sampleRate f1) (numSamples f1) f2 j
          + normHist (histTotal f1) (sampleRate f1) (numSamples f1) f1 j := add_comm _ _
    have hsq : (normHist (histTotal f1) (sampleRate f1) (numSamples f1) f1 j
          - normHist (histTotal f1) (sampleRate f1) (numSamples f1) f2 j) ^ 2
        = (normHist (histTotal f1) (sampleRate f1) (numSamples f1) f2 j
          - normHist (histTotal f1) (sampleRate f1) (numSamples f1) f1 j) ^ 2 := by
      ring
    rw [hadd, hsq]
  rw [hinter, hchi]

/-- The structural difference is symmetric for frames of equal dimensions
(the grid and indexing come from the first frame's dimensions). -/
lemma structuralDifference_symm {f1 f2 : ImageData} (hw : f1.width = f2.width)
    (hh : f1.height = f2.height) :
    calculateStructuralDifference f1 f2 = calculateStructuralDifference f2 f1 := by
  unfold calculateStructuralDifference blockDiff
  dsimp only
  rw [← hw, ← hh]
  have hsum : ∀ bx yb : Nat,
      ∑ p ∈ blockPixels f1.width f1.height bx yb,
          pixDiffQ f1 f2 (((yb * blockSize + p.2) * f1.width + (bx * blockSize + p.1)) * 4)
        = ∑ p ∈ blockPixels f1.width f1.height bx yb,
          pixDiffQ f2 f1 (((yb * blockSize + p.2) * f1.width + (bx * blockSize + p.1)) * 4) := by
    intro bx yb
    apply Finset.sum_congr rfl
    intro p _
    exact pixDiffQ_symm _ _ _
  have hmain : ∑ b ∈ (Finset.range (f1.width / blockSize) ×ˢ Finset.range (f1.height / blockSize)).filter
          (fun b => 0 < (blockPixels f1.width f1.height b.1 b.2).card),
        (∑ p ∈ blockPixels f1.width f1.height b.1 b.2,
            pixDiffQ f1 f2 (((b.2 * blockSize + p.2) * f1.width + (b.1 * blockSize + p.1)) * 4))
          / ((blockPixels f1.width f1.height b.1 b.2).card : ℚ)
      = ∑ b ∈ (Finset.range (f1.width / blockSize) ×ˢ Finset.range (f1.height / blockSize)).filter
          (fun b => 0 < (blockPixels f1.width f1.height b.1 b.2).card),
        (∑ p ∈ blockPixels f1.width f1.height b.1 b.2,
            pixDiffQ f2 f1 (((b.2 * blockSize + p.2) * f1.width + (b.1 * blockSize + p.1)) * 4))
          / ((blockPixels f1.width f1.height b.1 b.2).card : ℚ) := by
    apply Finset.sum_congr rfl
    intro b _
    rw [hsum b.1 b.2]
  rw [hmain]

/-- Claim C6 (confirmed): for well-formed frames `calculateFrameDifference`
is symmetric, for either value of `useHistogram`; the dimension-mismatch
branch returns `1` in both orders, and both component metrics are
symmetric. -/
theorem c6_difference_symm (f1 f2 : ImageData) (h1 : WellFormed f1)
    (h2 : WellFormed f2) (u : Bool) :
    calculateFrameDifference f1 f2 u = calculateFrameDifference f2 f1 u := by
  by_cases hdim : f1.width = f2.width ∧ f1.height = f2.height
  · obtain ⟨hw, hh⟩ := hdim
    have hlen : f1.data.length = f2.data.length := by
      rw [h1.1, h2.1, hw, hh]
    unfold calculateFrameDifference
    have hc1 : ¬ (f1.width ≠ f2.width ∨ f1.height ≠ f2.height) := by
      push_neg
      exact ⟨hw, hh⟩
    have hc2 : ¬ (f2.width ≠ f1.width ∨ f2.height ≠ f1.height) := by
      push_neg
      exact ⟨hw.symm, hh.symm⟩
    rw [if_neg hc1, if_neg hc2]
    cases u
    · simp only [Bool.false_eq_true, if_false]
      rw [← hlen]
      have hfall : ∑ k ∈ Finset.range ((f1.data.length + (4 * 16 - 1)) / (4 * 16)),
            pixDiffQ f1 f2 (4 * 16 * k)
          = ∑ k ∈ Finset.range ((f1.data.length + (4 * 16 - 1)) / (4 * 16)),
            pixDiffQ f2 f1 (4 * 16 * k) := by
        apply Finset.sum_congr rfl
        intro k _
        exact pixDiffQ_symm _ _ _
      rw [hfall]
    · simp only [if_true]
      rw [histogramDifference_symm hw hh hlen, structuralDifference_symm hw hh]
  · have hd : f1.width ≠ f2.width ∨ f1.height ≠ f2.height := by
      by_contra hcon
      push_neg at hcon
      exact hdim ⟨hcon.1, hcon.2⟩
    have hd2 : f2.width ≠ f1.width ∨ f2.height ≠ f1.height := by
      rcases hd with h | h
      · exact Or.inl (Ne.symm h)
      · exact Or.inr (Ne.symm h)
    unfold calculateFrameDifference
    rw [if_pos hd, if_pos hd2]

/-- Witness for C6 at the well-formed 4×3 frames `frameB` and `frameW`. -/
theorem c6_difference_symm_witness :
    WellFormed frameB ∧ WellFormed frameW ∧
    calculateFrameDifference frameB frameW true = calculateFrameDifference frameW frameB true :=
  ⟨by decide, by decide, c6_difference_symm frameB frameW (by decide) (by decide) true⟩

/-! ### Engine invariant lemmas and the engine claims -/

/-- The bootstrap state satisfies the window invariant. -/
lemma windowInv_init (opts : ProcessingOptions) (source : ℚ → ImageData) :
    WindowInv (initState opts source) := by
  intro hc
  simp [initState] at hc

/-- The generic shape of the candidate list after one analysis step whose
change marker ends up set: a fresh change clears it, and an already-open
window both blocks collection and was empty by the invariant. -/
lemma window_stable_empty {c : Option ℚ} {l : List StableFrame} {t0 u : ℚ}
    (S C : Prop) [Decidable S] [Decidable C] (p : List StableFrame)
    (hw : c.isSome → l = [])
    (heq : (if S ∧ c = none then some u else c) = some t0) :
    (if S ∧ c = none then ([] : List StableFrame) else (if C ∧ c = none then p else l))
      = [] := by
  by_cases hS : S ∧ c = none
  · rw [if_pos hS]
  · rw [if_neg hS] at heq ⊢
    have hC : ¬ (C ∧ c = none) := by
      intro hcon
      rw [hcon.2] at heq
      exact Option.noConfusion heq
    rw [if_neg hC]
    exact hw (by rw [heq]; rfl)

/-- One loop body step preserves the window invariant. -/
lemma windowInv_loopBody (opts : ProcessingOptions) (source : ℚ → ImageData)
    {s : EngineState} (h : WindowInv s) :
    WindowInv (loopBody opts source s) := by
  unfold loopBody
  cases hb : s.baselineFrame with
  | none =>
    intro hc
    exact h hc
  | some baseline =>
    dsimp only
    split
    · rename_i heq
      intro hc
      dsimp only at hc
      rw [heq] at hc
      simp at hc
    · rename_i t0 heq
      split
      · unfold resolveWindow
        intro hc
        exact rfl
      · intro hc
        exact window_stable_empty _ _ _ h heq

/-- A guarded loop step preserves the window invariant. -/
lemma windowInv_loopStep (opts : ProcessingOptions) (source : ℚ → ImageData)
    (duration : ℚ) {s : EngineState} (h : WindowInv s) :
    WindowInv (loopStep opts source duration s) := by
  unfold loopStep
  split
  · exact windowInv_loopBody opts source h
  · exact h

/-- Any number of guarded loop steps preserves the window invariant. -/
lemma windowInv_iterate (opts : ProcessingOptions) (source : ℚ → ImageData)
    (duration : ℚ) {s : EngineState} (h : WindowInv s) (n : Nat) :
    WindowInv ((loopStep opts source duration)^[n] s) := by
  induction n with
  | zero => exact h
  | succ k ih =>
    rw [Function.iterate_succ_apply']
    exact windowInv_loopStep opts source duration ih

/-- Under the window invariant the end-of-stream pending-change block is a
no-op: it demands an open window together with a non-empty candidate list. -/
lemma pendingResolve_of_windowInv (opts : ProcessingOptions) {s : EngineState}
    (h : WindowInv s) : pendingResolve opts s = s := by
  unfold pendingResolve
  cases hx : s.changeDetectedAt with
  | none => rfl
  | some t0 =>
    have hempty : s.stableFrames = [] := h (by rw [hx]; rfl)
    rw [if_neg]
    simp [hempty]

/-- `resolveWindow` only appends to the screenshot list. -/
lemma resolveWindow_screenshots (opts : ProcessingOptions) (frame : ImageData)
    (s : EngineState) :
    ∃ l, (resolveWindow opts frame s).screenshots = s.screenshots ++ l := by
  unfold resolveWindow
  dsimp only
  split_ifs
  · exact ⟨_, rfl⟩
  · exact ⟨_, rfl⟩
  · exact ⟨[], by simp⟩
  · exact ⟨[], by simp⟩

/-- The loop body only appends to the screenshot list. -/
lemma loopBody_screenshots (opts : ProcessingOptions) (source : ℚ → ImageData)
    (s : EngineState) :
    ∃ l, (loopBody opts source s).screenshots = s.screenshots ++ l := by
  unfold loopBody
  cases hb : s.baselineFrame with
  | none => exact ⟨[], by simp⟩
  | some baseline =>
    dsimp only
    split
    · exact ⟨[], by simp⟩
    · split
      · exact resolveWindow_screenshots opts _ _
      · exact ⟨[], by simp⟩

/-- A guarded loop step only appends to the screenshot list. -/
lemma loopStep_screenshots (opts : ProcessingOptions) (source : ℚ → ImageData)
    (duration : ℚ) (s : EngineState) :
    ∃ l, (loopStep opts source duration s).screenshots = s.screenshots ++ l := by
  unfold loopStep
  split
  · exact loopBody_screenshots opts source s
  · exact ⟨[], by simp⟩

/-- Iterated guarded loop steps only append to the screenshot list. -/
lemma iterate_screenshots (opts : ProcessingOptions) (source : ℚ → ImageData)
    (duration : ℚ) (s : EngineState) (n : Nat) :
    ∃ l, ((loopStep opts source duration)^[n] s).screenshots = s.screenshots ++ l := by
  induction n with
  | zero => exact ⟨[], by simp⟩
  | succ k ih =>
    obtain ⟨l1, hl1⟩ := ih
    obtain ⟨l2, hl2⟩ := loopStep_screenshots opts source duration
      ((loopStep opts source duration)^[k] s)
    rw [Function.iterate_succ_apply', hl2, hl1, List.append_assoc]
    exact ⟨l1 ++ l2, rfl⟩

/-- The pending-change block only appends to the screenshot list. -/
lemma pendingResolve_screenshots (opts : ProcessingOptions) (s : EngineState) :
    ∃ l, (pendingResolve opts s).screenshots = s.screenshots ++ l := by
  unfold pendingResolve
  split
  · exact ⟨[], by simp⟩
  · dsimp only
    split_ifs
    · exact ⟨_, rfl⟩
    · exact ⟨[], by simp⟩
    · exact ⟨[], by simp⟩

/-- The final-frame block only appends to the screenshot list. -/
lemma finalCapture_screenshots (opts : ProcessingOptions) (source : ℚ → ImageData)
    (duration : ℚ) (s : EngineState) :
    ∃ l, (finalCapture opts source duration s).screenshots = s.screenshots ++ l := by
  unfold finalCapture
  dsimp only
  split
  · split_ifs
    · exact ⟨_, rfl⟩
    · exact ⟨[], by simp⟩
  · split_ifs
    · exact ⟨_, rfl⟩
    · exact ⟨[], by simp⟩

/-- Claim C9 (confirmed): for every option set and every frame source — in
particular an arbitrarily blurry one, since no blur gate is applied — the
run's first emitted Screenshot is the bootstrap frame captured at
`0.1 + stabilityWindow` (frame number 0, blur score merely recorded), and
the baseline entering the loop is that emitted frame; hence every run emits
at least one Screenshot. -/
theorem c9_bootstrap_emission (opts : ProcessingOptions) (source : ℚ → ImageData)
    (duration : ℚ) (fuel : Nat) :
    (initState opts source).baselineFrame = some (source (1 / 10 + opts.stabilityWindow)) ∧
    ∃ rest, (processVideoModel opts source duration fuel).screenshots
      = (⟨1 / 10 + opts.stabilityWindow, 0,
          calculateBlurScore (source (1 / 10 + opts.stabilityWindow))⟩ : Screenshot) :: rest := by
  constructor
  · rfl
  · unfold processVideoModel
    obtain ⟨l1, h1⟩ := iterate_screenshots opts source duration (initState opts source) fuel
    obtain ⟨l2, h2⟩ := pendingResolve_screenshots opts
      ((loopStep opts source duration)^[fuel] (initState opts source))
    obtain ⟨l3, h3⟩ := finalCapture_screenshots opts source duration
      (pendingResolve opts ((loopStep opts source duration)^[fuel] (initState opts source)))
    rw [h3, h2, h1]
    have hinit : (initState opts source).screenshots
        = [⟨1 / 10 + opts.stabilityWindow, 0,
            calculateBlurScore (source (1 / 10 + opts.stabilityWindow))⟩] := rfl
    rw [hinit]
    exact ⟨l1 ++ l2 ++ l3, by simp⟩

/-- The bootstrap state satisfies the emission invariant when the bootstrap
timestamp does not exceed the duration. -/
lemma emitInv_init (opts : ProcessingOptions) (source : ℚ → ImageData)
    (duration : ℚ) (hdur : 1 / 10 + opts.stabilityWindow ≤ duration) :
    EmitInv opts duration (initState opts source) := by
  refine ⟨windowInv_init opts source, by simp [initState], by simp [initState],
    ⟨⟨1 / 10 + opts.stabilityWindow, 0,
      calculateBlurScore (source (1 / 10 + opts.stabilityWindow))⟩, rfl, rfl⟩, hdur⟩

/-- The loop body preserves the emission invariant whenever the loop guard
holds on entry. -/
lemma emitInv_loopBody (opts : ProcessingOptions) (source : ℚ → ImageData)
    (duration : ℚ) {s : EngineState} (h : EmitInv opts duration s)
    (hg : s.currentTime < duration - 1 / 10) :
    EmitInv opts duration (loopBody opts source s) := by
  obtain ⟨hw, hne, hchain, ⟨lastShot, hlast, hts⟩, hdur⟩ := h
  unfold loopBody
  cases hb : s.baselineFrame with
  | none => exact ⟨fun hcc => hw hcc, hne, hchain, ⟨lastShot, hlast, hts⟩, hdur⟩
  | some baseline =>
    dsimp only
    split
    · rename_i heq
      refine ⟨?_, hne, hchain, ⟨lastShot, hlast, hts⟩, hdur⟩
      intro hcc
      dsimp only at hcc
      rw [heq] at hcc
      simp at hcc
    · rename_i t0 heq
      split
      · -- window elapsed: resolution
        unfold resolveWindow
        have hempty := window_stable_empty _
          (calculateFrameDifference baseline (source s.currentTime) true < opts.stabilityThreshold)
          (pushCandidate opts s.currentTime (source s.currentTime)
            (calculateFrameDifference baseline (source s.currentTime) true) s.stableFrames)
          hw heq
        dsimp only
        rw [hempty, heq]
        have hno : ¬ (([] : List StableFrame) ≠ [] ∧
            opts.minScreenshotInterval ≤ s.currentTime - s.lastScreenshotTime) := by simp
        rw [if_neg hno]
        split_ifs with hgate hblur
        · -- fallback emission at the current time
          refine ⟨fun _ => rfl, by simp, ?_, ?_, ?_⟩
          · dsimp only
            apply List.Chain'.append hchain (List.chain'_singleton _)
            intro a ha b hb
            rw [hlast] at ha
            simp at ha hb
            subst ha
            subst hb
            dsimp only
            rw [hts]
            linarith [hgate.2]
          · exact ⟨_, List.getLast?_concat _, rfl⟩
          · dsimp only
            linarith [hg, show (0 : ℚ) ≤ 1 / 10 by norm_num]
        · -- fallback rejected for blur: nothing emitted
          exact ⟨fun _ => rfl, hne, hchain, ⟨lastShot, hlast, hts⟩, hdur⟩
        · -- interval gate failed: nothing emitted
          exact ⟨fun _ => rfl, hne, hchain, ⟨lastShot, hlast, hts⟩, hdur⟩
      · -- window not elapsed: nothing emitted
        exact ⟨fun hcc => window_stable_empty _ _ _ hw heq, hne, hchain,
          ⟨lastShot, hlast, hts⟩, hdur⟩

/-- A guarded loop step preserves the emission invariant. -/
lemma emitInv_loopStep (opts : ProcessingOptions) (source : ℚ → ImageData)
    (duration : ℚ) {s : EngineState} (h : EmitInv opts duration s) :
    EmitInv opts duration (loopStep opts source duration s) := by
  unfold loopStep
  split
  · rename_i hg
    exact emitInv_loopBody opts source duration h hg
  · exact h

/-- Iterated guarded loop steps preserve the emission invariant. -/
lemma emitInv_iterate (opts : ProcessingOptions) (source : ℚ → ImageData)
    (duration : ℚ) {s : EngineState} (h : EmitInv opts duration s) (n : Nat) :
    EmitInv opts duration ((loopStep opts source duration)^[n] s) := by
  induction n with
  | zero => exact h
  | succ k ih =>
    rw [Function.iterate_succ_apply']
    exact emitInv_loopStep opts source duration ih

/-- Claim C10 (confirmed): at every point of every run — after any number of
loop steps, for any options, source, duration and fuel — an open change
window implies an empty candidate list, and consequently the end-of-stream
pending-change block (which requires both an open window and a non-empty
candidate list) leaves the state unchanged and never emits. -/
theorem c10_open_window_empty_candidates (opts : ProcessingOptions)
    (source : ℚ → ImageData) (duration : ℚ) (fuel : Nat) :
    (((loopStep opts source duration)^[fuel] (initState opts source)).changeDetectedAt.isSome →
      ((loopStep opts source duration)^[fuel] (initState opts source)).stableFrames = []) ∧
    pendingResolve opts ((loopStep opts source duration)^[fuel] (initState opts source))
      = (loopStep opts source duration)^[fuel] (initState opts source) := by
  have hinv := windowInv_iterate opts source duration (windowInv_init opts source) fuel
  exact ⟨hinv, pendingResolve_of_windowInv opts hinv⟩

/-- Claim C5 (amended, proved): when `minScreenshotInterval > 0.1` and the
bootstrap timestamp `0.1 + stabilityWindow` does not exceed the duration,
the emitted timestamps are strictly increasing and each consecutive pair is
at least `minScreenshotInterval - 0.1` apart (the loop emissions keep the
full `minScreenshotInterval` spacing; the end-of-run final frame is gated
against `duration` but stamped `duration - 0.1`, so only the weakened bound
holds for the last pair). -/
theorem c5_amended_chain (opts : ProcessingOptions) (source : ℚ → ImageData)
    (duration : ℚ) (fuel : Nat)
    (hmin : 1 / 10 < opts.minScreenshotInterval)
    (hdur : 1 / 10 + opts.stabilityWindow ≤ duration) :
    List.Chain' (fun a b => a + (opts.minScreenshotInterval - 1 / 10) ≤ b ∧ a < b)
      ((processVideoModel opts source duration fuel).screenshots.map Screenshot.timestamp) := by
  obtain ⟨hw, hne, hchain, ⟨lastShot, hlast, hts⟩, hld⟩ :=
    emitInv_iterate opts source duration (emitInv_init opts source duration hdur) fuel
  unfold processVideoModel
  rw [pendingResolve_of_windowInv opts hw]
  unfold finalCapture
  dsimp only
  rw [hlast]
  dsimp only
  have hle : lastShot.timestamp ≤ duration := by
    rw [hts]
    exact hld
  split_ifs with hgate
  · rw [List.map_append]
    apply List.Chain'.append
    · rw [List.chain'_map]
      exact List.Chain'.imp (fun a b hab => ⟨by linarith, by linarith⟩) hchain
    · simp
    · intro a ha b hb
      rw [List.getLast?_map, hlast] at ha
      simp at ha hb
      subst ha
      subst hb
      have habs : |duration - lastShot.timestamp| = duration - lastShot.timestamp :=
        abs_of_nonneg (by linarith)
      rw [habs] at hgate
      constructor
      · linarith [hgate.1]
      · linarith [hgate.1]
  · rw [List.chain'_map]
    exact List.Chain'.imp (fun a b hab => ⟨by linarith, by linarith⟩) hchain


unseal Rat.add Rat.mul Rat.inv Rat.sub in
/-- Witness for C10 on the C1 failing run after one loop step, where the
change window opened at `t = 0.8` is open. -/
theorem c10_open_window_empty_candidates_witness :
    ((loopStep defaultOptions srcC1 3)^[1] (initState defaultOptions srcC1)).stableFrames = [] ∧
    pendingResolve defaultOptions
        ((loopStep defaultOptions srcC1 3)^[1] (initState defaultOptions srcC1))
      = (loopStep defaultOptions srcC1 3)^[1] (initState defaultOptions srcC1) :=
  ⟨(c10_open_window_empty_candidates defaultOptions srcC1 3 1).1 (by decide),
   (c10_open_window_empty_candidates defaultOptions srcC1 3 1).2⟩

/-- Witness for the amended C5 with the default options (interval 1 > 0.1)
on a 3-second run. -/
theorem c5_amended_chain_witness :
    (1 / 10 < defaultOptions.minScreenshotInterval ∧
      1 / 10 + defaultOptions.stabilityWindow ≤ (3 : ℚ)) ∧
    List.Chain'
      (fun a b => a + (defaultOptions.minScreenshotInterval - 1 / 10) ≤ b ∧ a < b)
      ((processVideoModel defaultOptions srcC5 3 4).screenshots.map Screenshot.timestamp) :=
  ⟨⟨by norm_num [defaultOptions], by norm_num [defaultOptions]⟩,
   c5_amended_chain defaultOptions srcC5 3 4 (by norm_num [defaultOptions])
     (by norm_num [defaultOptions])⟩


end ClothesDetection
